import Mathlib

/-!
Verification of the LayerClient library (`src/LayerClient/LayerClient.py`):
a shallow embedding of its data model, entity codecs, URI builder, request
executor and platform-client operations, together with theorems settling the
specification claims about them.

Python dictionaries are embedded as insertion-ordered association lists;
machine-level details (networking, TLS) stay behind the transport collaborator,
which is passed in explicitly as a function from requests to responses.
-/

set_option maxRecDepth 10000

namespace LayerClient

/-- Python runtime values flowing through the client: JSON scalars, lists and
dicts (insertion-ordered key/value lists), plus the two non-JSON object kinds
that occur in this code base: `PushNotification` instances (with the three
constructor attributes `text`, `sound`, `recipients` of
`PushNotification.__init__`, lines 451-454) and the datetime objects produced
by the date parser. -/
inductive PyVal where
  | null
  | str (s : String)
  | int (n : Int)
  | bool (b : Bool)
  | list (xs : List PyVal)
  | dict (fields : List (String × PyVal))
  | pnObj (text sound recipients : PyVal)
  | dateObj (s : String)

/-- Exceptions this code can raise: `LayerPlatformException` (lines 19-25,
with its constructor arguments `message`, `http_code`, `code`, `error_id`)
and the built-in Python exception kinds the code can hit. -/
inductive PyErr where
  | platform (message : PyVal) (http_code : Option Nat) (code : PyVal) (error_id : PyVal)
  | attributeError
  | typeError
  | valueError

/-- Python truthiness (`if x:`): `None`, empty strings, zero, `False` and
empty containers are falsy; class instances (`PushNotification`, datetime)
are always truthy. -/
def PyVal.truthy : PyVal → Bool
  | .null => false
  | .str s => s ≠ ""
  | .int n => n ≠ 0
  | .bool b => b
  | .list xs => !xs.isEmpty
  | .dict fs => !fs.isEmpty
  | .pnObj _ _ _ => true
  | .dateObj _ => true

/-- `d.get(key)` on a dict: first-match lookup, Python `None` when the key is
missing (Python dicts cannot hold duplicate keys, so first-match is exact). -/
def dictGet (fs : List (String × PyVal)) (k : String) : PyVal :=
  match fs.lookup k with
  | some v => v
  | none => .null

/-- `v.get(key)` on an arbitrary Python value: only dicts have `get`; any other
value, including `None`, raises `AttributeError`. -/
def pyGet (v : PyVal) (k : String) : Except PyErr PyVal :=
  match v with
  | .dict fs => .ok (dictGet fs k)
  | _ => .error .attributeError

/-- Python iteration (`for x in v`): lists yield their elements, strings yield
one-character strings, dicts yield their keys; other values raise
`TypeError`. -/
def pyIter (v : PyVal) : Except PyErr (List PyVal) :=
  match v with
  | .list xs => .ok xs
  | .str s => .ok (s.data.map fun c => .str (String.singleton c))
  | .dict fs => .ok (fs.map fun kv => .str kv.1)
  | _ => .error .typeError

mutual

/-- `json.dumps` succeeds exactly on JSON-encodable values; a raw
`PushNotification` or datetime object anywhere in the tree makes it raise
`TypeError`. -/
def PyVal.serializable : PyVal → Bool
  | .null => true
  | .str _ => true
  | .int _ => true
  | .bool _ => true
  | .list xs => serializableList xs
  | .dict fs => serializableFields fs
  | .pnObj _ _ _ => false
  | .dateObj _ => false

/-- All values of a Python list are JSON-encodable. -/
def serializableList : List PyVal → Bool
  | [] => true
  | x :: xs => x.serializable && serializableList xs

/-- All values of a Python dict are JSON-encodable. -/
def serializableFields : List (String × PyVal) → Bool
  | [] => true
  | kv :: fs => kv.2.serializable && serializableFields fs

end

/-- `v.hasKey k` holds when `v` is a dict carrying the key `k`. -/
def PyVal.hasKey (v : PyVal) (k : String) : Bool :=
  match v with
  | .dict fs => (fs.lookup k).isSome
  | _ => false

/-- Modelled from the spec: the external `dateutil.parser.parse` best-effort
ISO-8601 date parser, an excluded black-box collaborator of the core. On a
string it returns a datetime object; on a non-string it raises. The spec's
contract gives it no failure mode on strings, so it is modelled as total
there. -/
def dateutilParse (v : PyVal) : Except PyErr PyVal :=
  match v with
  | .str s => .ok (.dateObj s)
  | _ => .error .typeError

/-- `BaseLayerResponse.parse_date` (lines 48-60): a falsy date value gives
`None`; otherwise the date string is handed to `dateutil.parser.parse`. -/
def parse_date (date : PyVal) : Except PyErr PyVal :=
  if date.truthy then dateutilParse date else .ok .null

/-! ### The `urlparse` model

`BaseLayerResponse.uuid` calls the Python 2.7 standard-library `urlparse` and
reads its `path` component. The functions below reproduce the standard
library's `urlsplit`/`urlparse` path computation on character lists. -/

/-- Characters allowed in a URL scheme (`urlparse.scheme_chars`). -/
def scheme_chars : List Char :=
  "abcdefghijklmnopqrstuvwxyzABCDEFGHIJKLMNOPQRSTUVWXYZ0123456789+-.".data

/-- `s.split(sep, 1)`: split off everything after the first occurrence of
`sep`; when `sep` does not occur, the second component is empty and the first
is the whole input. -/
def splitFirst (sep : Char) (l : List Char) : List Char × List Char :=
  match l.findIdx? (· = sep) with
  | some i => (l.take i, l.drop (i + 1))
  | none => (l, [])

/-- `urlparse._splitnetloc(url, 2)`: the network-location part runs from index
2 to the first of `/`, `?` or `#` at or after index 2. -/
def splitnetloc (url : List Char) : List Char × List Char :=
  let rest := url.drop 2
  let d := rest.findIdx fun c => c = '/' || c = '?' || c = '#'
  (rest.take d, rest.drop d)

structure UrlSplitResult where
  scheme : List Char
  netloc : List Char
  path : List Char
  query : List Char
  fragment : List Char
deriving DecidableEq

/-- The netloc/fragment/query phase shared by both branches of
`urlparse.urlsplit` (fragments are allowed here, the default). Raises the
`Invalid IPv6 URL` `ValueError` when the netloc has an unmatched bracket. -/
def urlsplitRest (scheme url : List Char) : Except PyErr UrlSplitResult := do
  let (netloc, url) ←
    if url.take 2 = ['/', '/'] then
      let (n, u) := splitnetloc url
      if ('[' ∈ n ∧ ']' ∉ n) ∨ (']' ∈ n ∧ '[' ∉ n) then
        Except.error PyErr.valueError
      else
        Except.ok (n, u)
    else
      Except.ok (([] : List Char), url)
  let (url, fragment) := splitFirst '#' url
  let (url, query) := splitFirst '?' url
  .ok ⟨scheme, netloc, url, query, fragment⟩

/-- `urlparse.urlsplit` from the Python 2.7 standard library at its default
arguments (empty scheme, fragments allowed). The `http` fast path skips the
port-number check, exactly as in the original. -/
def pyUrlsplit (url : List Char) : Except PyErr UrlSplitResult :=
  match url.findIdx? (· = ':') with
  | some i =>
    if i > 0 then
      if url.take i = "http".data then
        urlsplitRest "http".data (url.drop (i + 1))
      else if (url.take i).all (· ∈ scheme_chars) then
        let rest := url.drop (i + 1)
        if rest.isEmpty || rest.any (fun c => !c.isDigit) then
          urlsplitRest ((url.take i).map Char.toLower) rest
        else
          urlsplitRest [] url
      else
        urlsplitRest [] url
    else
      urlsplitRest [] url
  | none => urlsplitRest [] url

/-- `urlparse.uses_params`: the schemes whose path gets its `;parameters`
suffix split off by `urlparse` on top of `urlsplit`. -/
def uses_params : List (List Char) :=
  ["ftp", "hdl", "prospero", "http", "imap", "https", "shttp", "rtsp",
   "rtspu", "sip", "sips", "mms", "", "sftp", "tel"].map String.data

/-- `urlparse._splitparams`: split the path at the first `;` after the last
`/` (or the first `;` at all when the path has no `/`). -/
def splitparams (url : List Char) : List Char × List Char :=
  let i :=
    if '/' ∈ url then
      let j := url.length - 1 - ((url.reverse.findIdx? (· = '/')).getD 0)
      match (url.drop j).findIdx? (· = ';') with
      | some k => some (j + k)
      | none => none
    else
      url.findIdx? (· = ';')
  match i with
  | some k => (url.take k, url.drop (k + 1))
  | none => (url, [])

/-- The `path` component of `urlparse.urlparse(url)`: `urlsplit`, then
parameter splitting for schemes in `uses_params` when the path carries a
`;`. -/
def pyUrlparsePath (url : List Char) : Except PyErr (List Char) := do
  let r ← pyUrlsplit url
  if r.scheme ∈ uses_params ∧ ';' ∈ r.path then
    .ok (splitparams r.path).1
  else
    .ok r.path

/-- Python `str.split(sep)` with a one-character separator and no limit: the
result always has at least one piece and keeps empty pieces. -/
def pySplit (sep : Char) : List Char → List (List Char)
  | [] => [[]]
  | c :: cs =>
    if c = sep then
      [] :: pySplit sep cs
    else
      match pySplit sep cs with
      | [] => [[c]]
      | p :: ps => (c :: p) :: ps

/-- `BaseLayerResponse.uuid` (lines 34-46) as a function of the identifier
characters: parse the identifier as a URL, split its path on `/`, and return
the last piece exactly when there are three pieces and the last one has 36
characters; otherwise `None`. -/
def uuid_chars (id : List Char) : Except PyErr (Option (List Char)) := do
  let path ← pyUrlparsePath id
  let path_parts := pySplit '/' path
  if path_parts.length = 3 ∧ (path_parts.getD 2 []).length = 36 then
    .ok (some (path_parts.getD 2 []))
  else
    .ok none

/-- `BaseLayerResponse.uuid` on the stored identifier attribute: `urlparse`
needs a string, so any non-string identifier raises `AttributeError`. -/
def BaseLayerResponse.uuid (id : PyVal) : Except PyErr (Option String) :=
  match id with
  | .str s => (uuid_chars s.data).map fun o => o.map String.mk
  | _ => .error .attributeError

/-! ### Module-level constants (lines 8-16) -/

def MIME_TEXT_PLAIN : String := "text/plain"

def METHOD_GET : String := "GET"

def METHOD_POST : String := "POST"

def METHOD_DELETE : String := "DELETE"

def LAYER_URI_ANNOUNCEMENTS : String := "announcements"

def LAYER_URI_CONVERSATIONS : String := "conversations"

def LAYER_URI_MESSAGES : String := "messages"

/-! ### Entity codecs -/

/-- A `Sender` instance (lines 351-388): attributes `id` and `name`, both
arbitrary Python values defaulting to `None`. -/
structure Sender where
  id : PyVal
  name : PyVal

/-- `Sender.from_dict` (lines 362-370): a falsy argument (in particular
`None`) gives `None`; otherwise the two fields are read with `get`. -/
def Sender.from_dict (json : PyVal) : Except PyErr (Option Sender) :=
  if json.truthy then do
    let i ← pyGet json "id"
    let n ← pyGet json "name"
    .ok (some ⟨i, n⟩)
  else
    .ok none

/-- `Sender.as_dict` (lines 378-388): a truthy `id` wins and only `user_id`
is emitted; otherwise only `name` is emitted. -/
def Sender.as_dict (s : Sender) : PyVal :=
  if s.id.truthy then
    .dict [("user_id", s.id)]
  else
    .dict [("name", s.name)]

/-- A `MessagePart` instance (lines 391-436): attributes `body`, `mime_type`
and `encoding`. -/
structure MessagePart where
  body : PyVal
  mime_type : PyVal
  encoding : PyVal

/-- `MessagePart.__init__` (lines 402-405) called with only a body: `mime`
defaults to `MIME_TEXT_PLAIN` and `encoding` to `None`. -/
def MessagePart.initDefault (body : PyVal) : MessagePart :=
  ⟨body, .str MIME_TEXT_PLAIN, .null⟩

/-- `MessagePart.from_dict` (lines 407-413): the three fields are read with
`get`; nothing else is applied. -/
def MessagePart.from_dict (dict_data : PyVal) : Except PyErr MessagePart := do
  let b ← pyGet dict_data "body"
  let m ← pyGet dict_data "mime_type"
  let e ← pyGet dict_data "encoding"
  .ok ⟨b, m, e⟩

/-- `MessagePart.as_dict` (lines 428-436): `body` and `mime_type` always,
`encoding` only when truthy. -/
def MessagePart.as_dict (p : MessagePart) : PyVal :=
  .dict (
    [("body", p.body), ("mime_type", p.mime_type)]
      ++ (if p.encoding.truthy then [("encoding", p.encoding)] else []))

/-- `PushNotification.as_dict` (lines 461-481). Lines 473-478 compute a
reduced per-recipient dict holding only each override's `text` and `sound`,
but line 479 then stores the raw `self.recipients` mapping in the output
instead of that reduced dict. The reduction loop still runs (so the attribute
accesses it makes can still raise) and its result is discarded, which the
binding of `_recipients_dict` below mirrors. Called on anything other than a
`PushNotification` instance, the attribute accesses raise `AttributeError`. -/
def PushNotification.as_dict (p : PyVal) : Except PyErr PyVal :=
  match p with
  | .pnObj text sound recipients => do
    let base := [("text", text)]
    let base := base ++ (if sound.truthy then [("sound", sound)] else [])
    if recipients.truthy then
      match recipients with
      | .dict m => do
        let _recipients_dict ← m.mapM fun kv =>
          match kv.2 with
          | .pnObj t s _ => Except.ok (kv.1, PyVal.dict [("text", t), ("sound", s)])
          | _ => Except.error PyErr.attributeError
        .ok (.dict (base ++ [("recipients", recipients)]))
      | _ => .error .attributeError
    else
      .ok (.dict base)
  | _ => .error .attributeError

/-- A `Conversation` instance (lines 484-514). -/
structure Conversation where
  id : PyVal
  url : PyVal
  messages_url : PyVal
  created_at : PyVal
  participants : PyVal
  distinct : PyVal
  metadata : PyVal

/-- `Conversation.from_dict` (lines 500-514): `created_at` is computed first
(with a truthiness guard around `dateutil.parser.parse`), then every field is
read with `get`. -/
def Conversation.from_dict (dict_data : PyVal) : Except PyErr Conversation := do
  let createdRaw ← pyGet dict_data "created_at"
  let created_at ← if createdRaw.truthy then dateutilParse createdRaw else .ok .null
  let i ← pyGet dict_data "id"
  let u ← pyGet dict_data "url"
  let mu ← pyGet dict_data "messages_url"
  let pa ← pyGet dict_data "participants"
  let di ← pyGet dict_data "distinct"
  let me ← pyGet dict_data "metadata"
  .ok ⟨i, u, mu, created_at, pa, di, me⟩

/-- `Conversation.uuid`, inherited from `BaseLayerResponse`. -/
def Conversation.uuid (c : Conversation) : Except PyErr (Option String) :=
  BaseLayerResponse.uuid c.id

/-- A `Message` instance (lines 316-343). -/
structure Message where
  id : PyVal
  url : PyVal
  sent_at : PyVal
  sender : Option Sender
  conversation : Conversation
  parts : List MessagePart
  recipient_status : PyVal

/-- `Message.from_dict` (lines 331-343), with the argument expressions
evaluated in Python's left-to-right order: `id`, `url`,
`parse_date(sent_at)`, the nested `Sender`, the nested `Conversation`, the
list comprehension over `parts`, then `recipient_status`. -/
def Message.from_dict (dict_data : PyVal) : Except PyErr Message := do
  let i ← pyGet dict_data "id"
  let u ← pyGet dict_data "url"
  let sentRaw ← pyGet dict_data "sent_at"
  let sent_at ← parse_date sentRaw
  let senderRaw ← pyGet dict_data "sender"
  let sender ← Sender.from_dict senderRaw
  let convRaw ← pyGet dict_data "conversation"
  let conversation ← Conversation.from_dict convRaw
  let partsRaw ← pyGet dict_data "parts"
  let partVals ← pyIter partsRaw
  let parts ← partVals.mapM MessagePart.from_dict
  let rs ← pyGet dict_data "recipient_status"
  .ok ⟨i, u, sent_at, sender, conversation, parts, rs⟩

/-- An `Announcement` instance (lines 284-308). -/
structure Announcement where
  id : PyVal
  url : PyVal
  sent_at : PyVal
  recipients : PyVal
  sender : Option Sender
  parts : List MessagePart

/-- `Announcement.from_dict` (lines 297-308), in Python's left-to-right
argument order. -/
def Announcement.from_dict (dict_data : PyVal) : Except PyErr Announcement := do
  let i ← pyGet dict_data "id"
  let u ← pyGet dict_data "url"
  let sentRaw ← pyGet dict_data "sent_at"
  let sent_at ← parse_date sentRaw
  let re ← pyGet dict_data "recipients"
  let sender ← Sender.from_dict (← pyGet dict_data "sender")
  let partsRaw ← pyGet dict_data "parts"
  let partVals ← pyIter partsRaw
  let parts ← partVals.mapM MessagePart.from_dict
  .ok ⟨i, u, sent_at, re, sender, parts⟩

/-! ### Request executor and platform client -/

/-- One HTTP request as handed to the transport collaborator
(`requests.request`): method, URL, headers and the optional JSON payload
(recorded here in its pre-serialization form; `json.dumps` is modelled by
`PyVal.serializable`). -/
structure RequestRecord where
  method : String
  url : String
  headers : List (String × String)
  body : Option PyVal

/-- One HTTP response as the transport collaborator returns it: status code,
raw body text, and the parse of that text as JSON (`response.json()`), which
is `none` exactly when the body is not valid JSON. -/
structure HttpResponse where
  status : Nat
  text : String
  jsonBody : Option PyVal

/-- `requests`: `response.ok` is true exactly for status codes below 400. -/
def HttpResponse.ok (r : HttpResponse) : Bool :=
  r.status < 400

/-- A `PlatformClient` instance (lines 63-78): immutable configuration. -/
structure PlatformClient where
  app_uuid : String
  bearer_token : String

/-- `PlatformClient._get_layer_headers` (lines 80-92). -/
def PlatformClient.get_layer_headers (c : PlatformClient) : List (String × String) :=
  [("Accept", "application/vnd.layer+json; version=1.0"),
   ("Authorization", "Bearer " ++ c.bearer_token),
   ("Content-Type", "application/json")]

/-- `'/'.join(suffixes)`: joining raises `TypeError` when any element is
`None` rather than a string. -/
def pyJoinSlash : List (Option String) → Except PyErr String
  | [] => .ok ""
  | [some s] => .ok s
  | some s :: rest => do
    let r ← pyJoinSlash rest
    .ok (s ++ "/" ++ r)
  | none :: _ => .error .typeError

/-- `PlatformClient._get_layer_uri` (lines 94-107): an empty suffix tuple
gives the bare collection URI, otherwise the suffixes are joined with `/`. -/
def PlatformClient.get_layer_uri (c : PlatformClient) (suffixes : List (Option String)) :
    Except PyErr String := do
  let suffix_string ← if suffixes.isEmpty then Except.ok "" else pyJoinSlash suffixes
  .ok ("https://api.layer.com/apps/" ++ c.app_uuid ++ "/" ++ suffix_string)

/-- The response-classification half of `PlatformClient._raw_request`
(lines 131-148): an OK status returns the parsed JSON body (raising
`ValueError` when the body is not JSON); a non-OK status raises
`LayerPlatformException` built from the body's `message`/`code`/`id` fields
when the body parses as a JSON object, raises `AttributeError` when it parses
as JSON that is not an object (the `except ValueError` clause does not catch
that), and raises `LayerPlatformException` with the raw body text when the
body is not JSON at all. -/
def handle_response (resp : HttpResponse) : Except PyErr PyVal :=
  if resp.ok then
    match resp.jsonBody with
    | some j => .ok j
    | none => .error .valueError
  else
    match resp.jsonBody with
    | some (.dict fs) =>
      .error (.platform (dictGet fs "message") (some resp.status)
        (dictGet fs "code") (dictGet fs "id"))
    | some _ => .error .attributeError
    | none => .error (.platform (.str resp.text) (some resp.status) .null .null)

/-- `PlatformClient._raw_request` (lines 109-148). The payload is serialized
with `json.dumps` before the transport call, so an unserializable payload
raises `TypeError` with no request issued; a falsy payload sends no body.
Returns the list of requests actually handed to the transport together with
the result. -/
def PlatformClient.raw_request (c : PlatformClient) (method url : String)
    (data : Option PyVal) (transport : RequestRecord → HttpResponse) :
    List RequestRecord × Except PyErr PyVal :=
  let payload : Except PyErr (Option PyVal) :=
    match data with
    | some d =>
      if d.truthy then
        if d.serializable then .ok (some d) else .error .typeError
      else
        .ok none
    | none => .ok none
  match payload with
  | .error e => ([], .error e)
  | .ok body =>
    let req : RequestRecord := ⟨method, url, c.get_layer_headers, body⟩
    ([req], handle_response (transport req))

/-- `PlatformClient.delete_conversation` (lines 168-181): DELETE on the
conversation resource, discarding the decoded response body. -/
def PlatformClient.delete_conversation (c : PlatformClient) (conversation_uuid : String)
    (transport : RequestRecord → HttpResponse) :
    List RequestRecord × Except PyErr Unit :=
  match c.get_layer_uri [some LAYER_URI_CONVERSATIONS, some conversation_uuid] with
  | .error e => ([], .error e)
  | .ok url =>
    let (reqs, res) := c.raw_request METHOD_DELETE url none transport
    (reqs, res.map fun _ => ())

/-- The request body built by `send_message` (lines 230-237): encoded sender,
encoded parts, and the encoded notification when one is given and truthy. -/
def send_message_payload (sender : Sender) (message_parts : List MessagePart)
    (notification : Option PyVal) : Except PyErr PyVal := do
  let base := [("sender", sender.as_dict),
               ("parts", PyVal.list (message_parts.map MessagePart.as_dict))]
  match notification with
  | some n =>
    if n.truthy then do
      let nd ← PushNotification.as_dict n
      .ok (.dict (base ++ [("notification", nd)]))
    else
      .ok (.dict base)
  | none => .ok (.dict base)

/-- `PlatformClient.send_message` (lines 211-249): the guard returns `None`
with no network call when `conversation`, `sender` or `message_parts` is
falsy; otherwise the body is built, the URL is composed from the
conversation's extracted UUID, and the POST response is decoded as a
`Message`. -/
def PlatformClient.send_message (c : PlatformClient) (conversation : Option Conversation)
    (sender : Option Sender) (message_parts : Option (List MessagePart))
    (notification : Option PyVal) (transport : RequestRecord → HttpResponse) :
    List RequestRecord × Except PyErr (Option Message) :=
  match conversation, sender, message_parts with
  | some conv, some snd, some parts =>
    if parts.isEmpty then
      ([], .ok none)
    else
      match send_message_payload snd parts notification with
      | .error e => ([], .error e)
      | .ok request_data =>
        match conv.uuid with
        | .error e => ([], .error e)
        | .ok conv_uuid =>
          match c.get_layer_uri
              [some LAYER_URI_CONVERSATIONS, conv_uuid, some LAYER_URI_MESSAGES] with
          | .error e => ([], .error e)
          | .ok url =>
            let (reqs, res) := c.raw_request METHOD_POST url (some request_data) transport
            (reqs, (res.bind Message.from_dict).map some)
  | _, _, _ => ([], .ok none)

/-- The request body built by `send_announcement` (lines 263-273): the sender
is serialized inline as `{'name': sender.name}`, never through
`Sender.as_dict`. -/
def send_announcement_payload (sender : Sender) (recipients : PyVal)
    (message_parts : List MessagePart) (notification : Option PyVal) :
    Except PyErr PyVal := do
  let base := [("sender", PyVal.dict [("name", sender.name)]),
               ("parts", PyVal.list (message_parts.map MessagePart.as_dict)),
               ("recipients", recipients)]
  match notification with
  | some n =>
    if n.truthy then do
      let nd ← PushNotification.as_dict n
      .ok (.dict (base ++ [("notification", nd)]))
    else
      .ok (.dict base)
  | none => .ok (.dict base)

/-- A per-recipient override notification that itself (erroneously) carries a
further per-recipient override, for the recipient `u2`. -/
def nestedOverride : PyVal :=
  .pnObj (.str "inner") (.str "chime") (.dict [("u2", .pnObj (.str "deep") .null .null)])

/-- `PlatformClient.send_announcement` (lines 251-281). -/
def PlatformClient.send_announcement (c : PlatformClient) (sender : Sender)
    (recipients : PyVal) (message_parts : List MessagePart)
    (notification : Option PyVal) (transport : RequestRecord → HttpResponse) :
    List RequestRecord × Except PyErr Announcement :=
  match send_announcement_payload sender recipients message_parts notification with
  | .error e => ([], .error e)
  | .ok request_data =>
    match c.get_layer_uri [some LAYER_URI_ANNOUNCEMENTS] with
    | .error e => ([], .error e)
    | .ok url =>
      let (reqs, res) := c.raw_request METHOD_POST url (some request_data) transport
      (reqs, res.bind Announcement.from_dict)

/-- A conversation as the server would return it, used as a concrete input
for the send‑message theorems. -/
def convWitness : Conversation :=
  ⟨.str "layer:///conversations/f3cc7b32-3c92-11e4-baad-164230d1df67",
    .null, .null, .null, .null, .null, .null⟩

/-! ## Helper lemmas -/

/-- `parse_date` succeeds on every falsy value and on every string. -/
theorem parse_date_ok (v : PyVal)
    (h : v.truthy = false ∨ ∃ s, v = .str s) : ∃ d, parse_date v = .ok d := by
  rcases h with h | ⟨s, h⟩
  · exact ⟨.null, by simp [parse_date, h]⟩
  · subst h
    by_cases hs : s = ""
    · subst hs
      exact ⟨.null, rfl⟩
    · exact ⟨.dateObj s, by simp [parse_date, PyVal.truthy, hs, dateutilParse]⟩

/-- `Sender.from_dict` either raises `AttributeError` or succeeds. -/
theorem sender_from_dict_cases (v : PyVal) :
    Sender.from_dict v = .error .attributeError ∨ ∃ o, Sender.from_dict v = .ok o := by
  unfold Sender.from_dict
  by_cases h : v.truthy = true
  · rw [if_pos h]
    cases v with
    | dict fs => exact Or.inr ⟨some ⟨dictGet fs "id", dictGet fs "name"⟩, rfl⟩
    | null => exact Or.inl rfl
    | str s => exact Or.inl rfl
    | int n => exact Or.inl rfl
    | bool b => exact Or.inl rfl
    | list xs => exact Or.inl rfl
    | pnObj t s r => exact Or.inl rfl
    | dateObj s => exact Or.inl rfl
  · rw [if_neg h]
    exact Or.inr ⟨none, rfl⟩

/-- `Sender.from_dict` succeeds on `None` and on every dict. -/
theorem sender_from_dict_ok (v : PyVal)
    (h : v = .null ∨ ∃ gs, v = .dict gs) :
    ∃ o, Sender.from_dict v = .ok o := by
  rcases h with h | ⟨gs, h⟩ <;> subst h
  · exact ⟨none, rfl⟩
  · unfold Sender.from_dict
    by_cases h : (PyVal.dict gs).truthy = true
    · rw [if_pos h]
      exact ⟨some ⟨dictGet gs "id", dictGet gs "name"⟩, rfl⟩
    · rw [if_neg h]
      exact ⟨none, rfl⟩

/-- `Conversation.from_dict` succeeds on every JSON object whose
`created_at` field is falsy or a string, reading each field with `get`. -/
theorem conversation_from_dict_ok (fs : List (String × PyVal))
    (h : (dictGet fs "created_at").truthy = false ∨ ∃ s, dictGet fs "created_at" = .str s) :
    ∃ conv : Conversation, Conversation.from_dict (.dict fs) = .ok conv ∧
      conv.id = dictGet fs "id" ∧ conv.url = dictGet fs "url" ∧
      conv.messages_url = dictGet fs "messages_url" ∧
      conv.participants = dictGet fs "participants" ∧
      conv.distinct = dictGet fs "distinct" ∧
      conv.metadata = dictGet fs "metadata" := by
  rcases h with h | ⟨s, h⟩
  · exact ⟨⟨dictGet fs "id", dictGet fs "url", dictGet fs "messages_url", .null,
      dictGet fs "participants", dictGet fs "distinct", dictGet fs "metadata"⟩,
      by simp [Conversation.from_dict, pyGet, Bind.bind, Except.bind, h],
      rfl, rfl, rfl, rfl, rfl, rfl⟩
  · by_cases hs : s = ""
    · subst hs
      exact ⟨⟨dictGet fs "id", dictGet fs "url", dictGet fs "messages_url", .null,
        dictGet fs "participants", dictGet fs "distinct", dictGet fs "metadata"⟩,
        by simp [Conversation.from_dict, pyGet, Bind.bind, Except.bind, h, PyVal.truthy],
        rfl, rfl, rfl, rfl, rfl, rfl⟩
    · exact ⟨⟨dictGet fs "id", dictGet fs "url", dictGet fs "messages_url", .dateObj s,
        dictGet fs "participants", dictGet fs "distinct", dictGet fs "metadata"⟩,
        by simp [Conversation.from_dict, pyGet, Bind.bind, Except.bind, h, PyVal.truthy,
          hs, dateutilParse],
        rfl, rfl, rfl, rfl, rfl, rfl⟩

/-- Decoding a list of JSON objects as message parts succeeds. -/
theorem mapM_message_part_ok (ps : List PyVal)
    (h : ∀ p ∈ ps, ∃ qs, p = PyVal.dict qs) :
    ∃ mps, ps.mapM MessagePart.from_dict = .ok mps := by
  induction ps with
  | nil => exact ⟨[], rfl⟩
  | cons p ps ih =>
    obtain ⟨qs, hq⟩ := h p (by simp)
    obtain ⟨mps, hmps⟩ := ih fun q hqm => h q (by simp [hqm])
    subst hq
    refine ⟨⟨dictGet qs "body", dictGet qs "mime_type", dictGet qs "encoding"⟩ :: mps, ?_⟩
    rw [List.mapM_cons]
    rw [show MessagePart.from_dict (PyVal.dict qs) =
      Except.ok ⟨dictGet qs "body", dictGet qs "mime_type", dictGet qs "encoding"⟩ from rfl]
    rw [show List.mapM MessagePart.from_dict ps =
      Except.ok mps from hmps]
    rfl

/-- The body built by `send_message` is always a non-empty dict. -/
theorem send_message_payload_shape (snd : Sender) (parts : List MessagePart)
    (notif : Option PyVal) (body : PyVal)
    (h : send_message_payload snd parts notif = .ok body) :
    ∃ l, body = .dict l ∧ l ≠ [] := by
  unfold send_message_payload at h
  cases notif with
  | none =>
    dsimp only at h
    cases h
    exact ⟨_, rfl, by simp⟩
  | some n =>
    dsimp only at h
    by_cases hn : n.truthy = true
    · rw [if_pos hn] at h
      cases hd : PushNotification.as_dict n with
      | error e => rw [hd] at h; cases h
      | ok nd =>
        rw [hd] at h
        simp only [Bind.bind, Except.bind] at h
        cases h
        exact ⟨_, rfl, by simp⟩
    · rw [if_neg hn] at h
      cases h
      exact ⟨_, rfl, by simp⟩

/-- The body built by `send_announcement` always opens with the sender
serialized by name only, and carries no top-level `user_id` field. -/
theorem send_announcement_payload_shape (snd : Sender) (recipients : PyVal)
    (parts : List MessagePart) (notif : Option PyVal) (body : PyVal)
    (h : send_announcement_payload snd recipients parts notif = .ok body) :
    ∃ l, body = .dict l ∧
      l.lookup "sender" = some (.dict [("name", snd.name)]) ∧
      l.lookup "user_id" = none ∧ l ≠ [] := by
  unfold send_announcement_payload at h
  cases notif with
  | none =>
    dsimp only at h
    cases h
    exact ⟨_, rfl, by simp [List.lookup], by simp [List.lookup], by simp⟩
  | some n =>
    dsimp only at h
    by_cases hn : n.truthy = true
    · rw [if_pos hn] at h
      cases hd : PushNotification.as_dict n with
      | error e => rw [hd] at h; cases h
      | ok nd =>
        rw [hd] at h
        simp only [Bind.bind, Except.bind] at h
        cases h
        exact ⟨_, rfl, by simp [List.lookup], by simp [List.lookup], by simp⟩
    · rw [if_neg hn] at h
      cases h
      exact ⟨_, rfl, by simp [List.lookup], by simp [List.lookup], by simp⟩

/-- `pySplit` never returns the empty list of pieces. -/
theorem pySplit_ne_nil (sep : Char) (l : List Char) : pySplit sep l ≠ [] := by
  cases l with
  | nil => simp [pySplit]
  | cons c cs =>
    simp only [pySplit]
    split
    · simp
    · split
      · simp
      · simp

/-- `pySplit` on a list starting with the separator: an empty first piece. -/
theorem pySplit_cons_sep (sep : Char) (ys : List Char) :
    pySplit sep (sep :: ys) = [] :: pySplit sep ys := by
  simp [pySplit]

/-- `pySplit` on a list starting with a non-separator: the head is prepended
to the first piece. -/
theorem pySplit_cons_ne (sep y : Char) (ys : List Char) (hy : ¬y = sep)
    (p : List Char) (ps : List (List Char)) (hps : pySplit sep ys = p :: ps) :
    pySplit sep (y :: ys) = (y :: p) :: ps := by
  simp only [pySplit, if_neg hy, hps]

/-- One piece means: no separator at all. -/
theorem pySplit_singleton (sep : Char) (l c : List Char) :
    pySplit sep l = [c] ↔ l = c ∧ sep ∉ c := by
  induction l generalizing c with
  | nil =>
    cases c <;> simp [pySplit]
  | cons y ys ih =>
    by_cases hy : y = sep
    · rw [hy, pySplit_cons_sep]
      constructor
      · intro h
        injection h with h1 h2
        exact absurd h2 (pySplit_ne_nil sep ys)
      · rintro ⟨h, hmem⟩
        refine absurd ?_ hmem
        rw [← h]
        exact List.mem_cons_self sep ys
    · cases hps : pySplit sep ys with
      | nil => exact absurd hps (pySplit_ne_nil sep ys)
      | cons p ps =>
        rw [pySplit_cons_ne sep y ys hy p ps hps]
        constructor
        · intro h
          injection h with h1 h2
          subst h2
          have hsingle : pySplit sep ys = [p] := hps
          obtain ⟨hyp, hpmem⟩ := (ih p).mp hsingle
          subst hyp
          refine ⟨h1, ?_⟩
          rw [← h1]
          intro hm
          rcases List.mem_cons.mp hm with hm | hm
          · exact hy hm.symm
          · exact hpmem hm
        · rintro ⟨h, hmem⟩
          have hys : sep ∉ ys := by
            intro hm
            refine hmem ?_
            rw [← h]
            exact List.mem_cons_of_mem y hm
          have hsingle : pySplit sep ys = [ys] := (ih ys).mpr ⟨rfl, hys⟩
          rw [hps] at hsingle
          injection hsingle with h1 h2
          subst h1
          subst h2
          rw [← h]

/-- Two pieces mean: exactly one separator, splitting the list in two
separator-free parts. -/
theorem pySplit_pair (sep : Char) (l b c : List Char) :
    pySplit sep l = [b, c] ↔ l = b ++ sep :: c ∧ sep ∉ b ∧ sep ∉ c := by
  induction l generalizing b with
  | nil =>
    constructor
    · intro h
      simp [pySplit] at h
    · rintro ⟨h, -, -⟩
      exact absurd h (by simp)
  | cons y ys ih =>
    by_cases hy : y = sep
    · rw [hy, pySplit_cons_sep]
      constructor
      · intro h
        injection h with h1 h2
        obtain ⟨hyc, hc⟩ := (pySplit_singleton sep ys c).mp h2
        subst hyc
        exact ⟨by rw [← h1]; simp, by rw [← h1]; simp, hc⟩
      · rintro ⟨heq, hb, hc⟩
        cases b with
        | nil =>
          simp only [List.nil_append, List.cons.injEq] at heq
          rw [(pySplit_singleton sep ys c).mpr ⟨heq.2, hc⟩]
        | cons z zs =>
          simp only [List.cons_append, List.cons.injEq] at heq
          refine absurd ?_ hb
          rw [heq.1]
          exact List.mem_cons_self z zs
    · cases hps : pySplit sep ys with
      | nil => exact absurd hps (pySplit_ne_nil sep ys)
      | cons p ps =>
        rw [pySplit_cons_ne sep y ys hy p ps hps]
        constructor
        · intro h
          injection h with h1 h2
          subst h2
          have hpair : pySplit sep ys = [p, c] := hps
          obtain ⟨hyp, hp, hc⟩ := (ih p).mp hpair
          subst hyp
          refine ⟨by rw [← h1]; simp, ?_, hc⟩
          rw [← h1]
          intro hm
          rcases List.mem_cons.mp hm with hm | hm
          · exact hy hm.symm
          · exact hp hm
        · rintro ⟨heq, hb, hc⟩
          cases b with
          | nil =>
            simp only [List.nil_append, List.cons.injEq] at heq
            exact absurd heq.1 hy
          | cons z zs =>
            simp only [List.cons_append, List.cons.injEq] at heq
            obtain ⟨hyz, hys⟩ := heq
            have hzs : sep ∉ zs := fun hm => hb (List.mem_cons_of_mem z hm)
            have hpair : pySplit sep ys = [zs, c] := (ih zs).mpr ⟨hys, hzs, hc⟩
            rw [hps] at hpair
            injection hpair with h1 h2
            subst h1
            subst h2
            rw [hyz]

/-! ## Theorems settling the claims -/

/-- C1: the claim says `PushNotification.as_dict` reduces every value of the
emitted `recipients` map to a dict holding only `text` and `sound`, stripping
any nested per-recipient overrides. The code instead stores the raw
`self.recipients` mapping (line 479): the emitted value for `u1` is the raw
`PushNotification` object `nestedOverride`, which still carries its own
per-recipient override for `u2`, and is not a `{text, sound}` dict at all. -/
theorem pushNotification_as_dict_keeps_nested_overrides :
    PushNotification.as_dict (.pnObj (.str "hello") .null (.dict [("u1", nestedOverride)])) =
      .ok (.dict [("text", .str "hello"), ("recipients", .dict [("u1", nestedOverride)])]) ∧
    nestedOverride =
      .pnObj (.str "inner") (.str "chime") (.dict [("u2", .pnObj (.str "deep") .null .null)]) :=
  ⟨rfl, rfl⟩

/-- C2 counterexample: decoding a `Message` from the well-formed (but empty)
JSON object `{}` raises instead of producing a message with absent fields:
the nested `conversation` field is missing, so `Conversation.from_dict` is
called on `None` and its first `.get` raises `AttributeError`. -/
theorem message_from_dict_empty_object_raises :
    Message.from_dict (.dict []) = .error .attributeError :=
  rfl

/-- C2 (amended): decoding `Conversation`, `Sender` and `MessagePart` from
sparse JSON objects never raises and missing fields decode to absent, and a
null `sender` in a `Message`/`Announcement` decodes to absent; but `Message`
and `Announcement` decoding is not total: a missing or null `parts` list
raises `TypeError`, a missing or null nested `conversation` in a `Message`
raises `AttributeError`, and decoding succeeds when `conversation` is an
object and `parts` is a list of objects (date fields being absent, empty or
strings throughout). -/
theorem decoders_partial_totality :
    (∀ fs : List (String × PyVal),
      ((dictGet fs "created_at").truthy = false ∨ ∃ s, dictGet fs "created_at" = .str s) →
      ∃ conv : Conversation, Conversation.from_dict (.dict fs) = .ok conv ∧
        conv.id = dictGet fs "id" ∧ conv.url = dictGet fs "url" ∧
        conv.messages_url = dictGet fs "messages_url" ∧
        conv.participants = dictGet fs "participants" ∧
        conv.distinct = dictGet fs "distinct" ∧
        conv.metadata = dictGet fs "metadata") ∧
    Sender.from_dict .null = .ok none ∧
    (∀ fs : List (String × PyVal),
      MessagePart.from_dict (.dict fs) =
        .ok ⟨dictGet fs "body", dictGet fs "mime_type", dictGet fs "encoding"⟩) ∧
    (∀ fs : List (String × PyVal),
      ((dictGet fs "sent_at").truthy = false ∨ ∃ s, dictGet fs "sent_at" = .str s) →
      dictGet fs "conversation" = .null →
      Message.from_dict (.dict fs) = .error .attributeError) ∧
    (∀ fs gs : List (String × PyVal),
      ((dictGet fs "sent_at").truthy = false ∨ ∃ s, dictGet fs "sent_at" = .str s) →
      (dictGet fs "sender" = .null ∨ ∃ hs, dictGet fs "sender" = .dict hs) →
      dictGet fs "conversation" = .dict gs →
      ((dictGet gs "created_at").truthy = false ∨ ∃ s, dictGet gs "created_at" = .str s) →
      dictGet fs "parts" = .null →
      Message.from_dict (.dict fs) = .error .typeError) ∧
    (∀ fs : List (String × PyVal),
      ((dictGet fs "sent_at").truthy = false ∨ ∃ s, dictGet fs "sent_at" = .str s) →
      (dictGet fs "sender" = .null ∨ ∃ hs, dictGet fs "sender" = .dict hs) →
      dictGet fs "parts" = .null →
      Announcement.from_dict (.dict fs) = .error .typeError) ∧
    (∀ (fs gs : List (String × PyVal)) (ps : List PyVal),
      ((dictGet fs "sent_at").truthy = false ∨ ∃ s, dictGet fs "sent_at" = .str s) →
      (dictGet fs "sender" = .null ∨ ∃ hs, dictGet fs "sender" = .dict hs) →
      dictGet fs "conversation" = .dict gs →
      ((dictGet gs "created_at").truthy = false ∨ ∃ s, dictGet gs "created_at" = .str s) →
      dictGet fs "parts" = .list ps →
      (∀ p ∈ ps, ∃ qs, p = PyVal.dict qs) →
      ∃ m, Message.from_dict (.dict fs) = .ok m) := by
  refine ⟨conversation_from_dict_ok, rfl, fun fs => rfl, ?_, ?_, ?_, ?_⟩
  · intro fs hsent hconv
    obtain ⟨d, hd⟩ := parse_date_ok _ hsent
    rcases sender_from_dict_cases (dictGet fs "sender") with hs | ⟨o, hs⟩ <;>
      simp [Message.from_dict, pyGet, Bind.bind, Except.bind, hd, hs, hconv,
        Conversation.from_dict]
  · intro fs gs hsent hsender hconv hcreated hparts
    obtain ⟨d, hd⟩ := parse_date_ok _ hsent
    obtain ⟨o, ho⟩ := sender_from_dict_ok _ hsender
    obtain ⟨conv, hc, -, -, -, -, -, -⟩ := conversation_from_dict_ok gs hcreated
    simp [Message.from_dict, pyGet, Bind.bind, Except.bind, hd, ho, hconv, hc,
      hparts, pyIter]
  · intro fs hsent hsender hparts
    obtain ⟨d, hd⟩ := parse_date_ok _ hsent
    obtain ⟨o, ho⟩ := sender_from_dict_ok _ hsender
    simp [Announcement.from_dict, pyGet, Bind.bind, Except.bind, hd, ho, hparts, pyIter]
  · intro fs gs ps hsent hsender hconv hcreated hparts hobj
    obtain ⟨d, hd⟩ := parse_date_ok _ hsent
    obtain ⟨o, ho⟩ := sender_from_dict_ok _ hsender
    obtain ⟨conv, hc, -, -, -, -, -, -⟩ := conversation_from_dict_ok gs hcreated
    obtain ⟨mps, hmps⟩ := mapM_message_part_ok ps hobj
    refine ⟨⟨dictGet fs "id", dictGet fs "url", d, o, conv, mps,
      dictGet fs "recipient_status"⟩, ?_⟩
    simp only [Message.from_dict, pyGet, Bind.bind, Except.bind, hd, ho, hconv, hc,
      hparts, pyIter]
    rw [hmps]

/-- C2 witness: the totality conjunct for `Conversation` applied at the
empty JSON object. -/
theorem decoders_partial_totality_witness :
    ∃ conv : Conversation, Conversation.from_dict (.dict []) = .ok conv ∧
      conv.id = dictGet [] "id" ∧ conv.url = dictGet [] "url" ∧
      conv.messages_url = dictGet [] "messages_url" ∧
      conv.participants = dictGet [] "participants" ∧
      conv.distinct = dictGet [] "distinct" ∧
      conv.metadata = dictGet [] "metadata" :=
  decoders_partial_totality.1 [] (Or.inl rfl)

/-- C3 counterexample: a non-successful response whose body parses as JSON
(here the valid JSON body `[]`, which is a list, not an object) does not fail
with a `LayerPlatformException`: `error.get('message')` raises
`AttributeError`, which the `except ValueError` clause does not catch. -/
theorem raw_request_json_array_error_body_not_platform :
    (PlatformClient.raw_request ⟨"app", "token"⟩ METHOD_GET
        "https://api.layer.com/apps/app/conversations/c" none
        (fun _ => ⟨500, "[]", some (.list [])⟩)).2 = .error .attributeError :=
  rfl

/-- C3 (amended): on a non-successful status, a body parsing as a JSON
object fails with a `LayerPlatformException` whose message, remote code and
remote error id come from the `message`/`code`/`id` fields (absent when
missing) and whose `http_code` is the response status; a body that is not
valid JSON fails with a `LayerPlatformException` carrying exactly the raw
response text and the status, with code and error id absent. On a successful
status the parsed JSON body is returned. -/
theorem raw_request_error_normalization (c : PlatformClient) (method url : String)
    (resp : HttpResponse) :
    (resp.ok = false → ∀ fs, resp.jsonBody = some (.dict fs) →
      (c.raw_request method url none (fun _ => resp)).2 =
        .error (.platform (dictGet fs "message") (some resp.status)
          (dictGet fs "code") (dictGet fs "id"))) ∧
    (resp.ok = false → resp.jsonBody = none →
      (c.raw_request method url none (fun _ => resp)).2 =
        .error (.platform (.str resp.text) (some resp.status) .null .null)) ∧
    (resp.ok = true → ∀ j, resp.jsonBody = some j →
      (c.raw_request method url none (fun _ => resp)).2 = .ok j) := by
  refine ⟨fun hok fs hj => ?_, fun hok hj => ?_, fun hok j hj => ?_⟩ <;>
    simp [PlatformClient.raw_request, handle_response, hok, hj]

/-- C3 witness: the spec's own example, HTTP 422 with body
`{"message": "bad", "code": "invalid_id", "id": "err-1"}`. -/
theorem raw_request_error_normalization_witness :
    (PlatformClient.raw_request ⟨"app", "tok"⟩ METHOD_GET "u" none
        (fun _ => ⟨422, "e",
          some (.dict [("message", .str "bad"), ("code", .str "invalid_id"),
            ("id", .str "err-1")])⟩)).2 =
      .error (.platform (.str "bad") (some 422) (.str "invalid_id") (.str "err-1")) :=
  (raw_request_error_normalization ⟨"app", "tok"⟩ METHOD_GET "u"
      ⟨422, "e", some (.dict [("message", .str "bad"), ("code", .str "invalid_id"),
        ("id", .str "err-1")])⟩).1 rfl
    [("message", .str "bad"), ("code", .str "invalid_id"), ("id", .str "err-1")] rfl

/-- C4: UUID extraction returns the final path segment exactly when the
identifier's parsed path consists of exactly two `/`-separated segments and
the last one has exactly 36 characters, and returns absent otherwise; in
particular the spec's example identifier yields its UUID. The general part
is stated for identifiers whose parsed path is absolute (starts with `/`) or
empty, which covers every URI-shaped identifier (after `scheme://`, the
parsed path is always empty or absolute). -/
theorem uuid_extraction_two_segments_36 :
    BaseLayerResponse.uuid
        (.str "layer:///conversations/f3cc7b32-3c92-11e4-baad-164230d1df67") =
      .ok (some "f3cc7b32-3c92-11e4-baad-164230d1df67") ∧
    (∀ (id path : List Char), pyUrlparsePath id = .ok path →
      (path = [] ∨ path.head? = some '/') →
      ∀ u : List Char,
        uuid_chars id = .ok (some u) ↔
          ∃ a, path = '/' :: (a ++ '/' :: u) ∧ '/' ∉ a ∧ '/' ∉ u ∧ u.length = 36) := by
  constructor
  · rfl
  · intro id path hp hh u
    unfold uuid_chars
    rw [hp]
    dsimp only [Bind.bind, Except.bind]
    rcases hh with rfl | hh
    · simp [pySplit]
    · obtain ⟨c, t, rfl⟩ : ∃ c t, path = c :: t := by
        cases path with
        | nil => simp at hh
        | cons c t => exact ⟨c, t, rfl⟩
      have hc : c = '/' := by simpa using hh
      subst hc
      rw [pySplit_cons_sep]
      constructor
      · intro hL
        by_cases hcond : ([] :: pySplit '/' t).length = 3 ∧
            (([] :: pySplit '/' t).getD 2 []).length = 36
        · rw [if_pos hcond] at hL
          obtain ⟨h3, h36⟩ := hcond
          have hQ2 : (pySplit '/' t).length = 2 := by
            simp only [List.length_cons] at h3
            omega
          obtain ⟨b, cc, hbc⟩ := List.length_eq_two.mp hQ2
          have hgd : ([] :: pySplit '/' t).getD 2 [] = cc := by
            rw [hbc]
            rfl
          rw [hgd] at hL h36
          have hcu : cc = u := by
            injection hL with h
            exact Option.some.inj h
          subst hcu
          obtain ⟨ht, hb, hcc⟩ := (pySplit_pair '/' t b cc).mp hbc
          exact ⟨b, by rw [ht], hb, hcc, h36⟩
        · rw [if_neg hcond] at hL
          exact absurd hL (by simp)
      · rintro ⟨a, heq, ha, hu, h36⟩
        have ht : t = a ++ '/' :: u := by
          injection heq with h1 h2
        have hQ : pySplit '/' t = [a, u] := (pySplit_pair '/' t a u).mpr ⟨ht, ha, hu⟩
        rw [hQ]
        have hcond : (([] : List Char) :: [a, u]).length = 3 ∧
            ((([] : List Char) :: [a, u]).getD 2 []).length = 36 := ⟨rfl, h36⟩
        rw [if_pos hcond]
        rfl

/-- C4 witness: the general characterization applied to the spec's example
identifier and its parsed path. -/
theorem uuid_extraction_two_segments_36_witness :
    uuid_chars "layer:///conversations/f3cc7b32-3c92-11e4-baad-164230d1df67".data =
        .ok (some "f3cc7b32-3c92-11e4-baad-164230d1df67".data) ↔
      ∃ a, "/conversations/f3cc7b32-3c92-11e4-baad-164230d1df67".data =
          '/' :: (a ++ '/' :: "f3cc7b32-3c92-11e4-baad-164230d1df67".data) ∧
        '/' ∉ a ∧ '/' ∉ "f3cc7b32-3c92-11e4-baad-164230d1df67".data ∧
        "f3cc7b32-3c92-11e4-baad-164230d1df67".data.length = 36 :=
  uuid_extraction_two_segments_36.2
    "layer:///conversations/f3cc7b32-3c92-11e4-baad-164230d1df67".data
    "/conversations/f3cc7b32-3c92-11e4-baad-164230d1df67".data
    rfl (Or.inr rfl) "f3cc7b32-3c92-11e4-baad-164230d1df67".data

/-- C5 counterexample: all three of conversation, sender and message parts
are present and non-empty (and the conversation's identifier is the spec's
own well-formed example), yet no POST is issued: the notification carries a
per-recipient override, `as_dict` leaves the raw `PushNotification` object
in the payload (line 479), and `json.dumps` raises `TypeError` before the
transport is ever called. -/
theorem send_message_nested_override_notification_no_post :
    PlatformClient.send_message ⟨"app", "tok"⟩ (some convWitness)
        (some ⟨.str "u1", .str "Alice"⟩) (some [MessagePart.initDefault (.str "hi")])
        (some (.pnObj (.str "t") .null (.dict [("u2", .pnObj (.str "x") .null .null)])))
        (fun _ => ⟨200, "", some .null⟩) =
      ([], .error .typeError) :=
  rfl

/-- C5 (amended): when `conversation`, `sender` or `message_parts` is
missing or empty, `send_message` returns absent immediately with no network
call; when all three are present and non-empty, exactly one POST is issued
to the conversation's messages sub-resource, provided the conversation's
identifier yields a UUID and the built payload is JSON-serializable
(otherwise a `TypeError` is raised with no request issued, as the
counterexample shows). -/
theorem send_message_guard_and_single_post :
    (∀ (c : PlatformClient) (snd : Option Sender) (parts : Option (List MessagePart))
        (notif : Option PyVal) (tr : RequestRecord → HttpResponse),
      c.send_message none snd parts notif tr = ([], .ok none)) ∧
    (∀ (c : PlatformClient) (conv : Conversation) (parts : Option (List MessagePart))
        (notif : Option PyVal) (tr : RequestRecord → HttpResponse),
      c.send_message (some conv) none parts notif tr = ([], .ok none)) ∧
    (∀ (c : PlatformClient) (conv : Conversation) (snd : Sender)
        (notif : Option PyVal) (tr : RequestRecord → HttpResponse),
      c.send_message (some conv) (some snd) none notif tr = ([], .ok none)) ∧
    (∀ (c : PlatformClient) (conv : Conversation) (snd : Sender)
        (notif : Option PyVal) (tr : RequestRecord → HttpResponse),
      c.send_message (some conv) (some snd) (some []) notif tr = ([], .ok none)) ∧
    (∀ (c : PlatformClient) (conv : Conversation) (snd : Sender)
        (parts : List MessagePart) (notif : Option PyVal)
        (tr : RequestRecord → HttpResponse) (u : String) (body : PyVal),
      parts ≠ [] →
      conv.uuid = .ok (some u) →
      send_message_payload snd parts notif = .ok body →
      body.serializable = true →
      (c.send_message (some conv) (some snd) (some parts) notif tr).1 =
        [⟨METHOD_POST,
          "https://api.layer.com/apps/" ++ c.app_uuid ++ "/" ++
            (LAYER_URI_CONVERSATIONS ++ "/" ++ (u ++ "/" ++ LAYER_URI_MESSAGES)),
          c.get_layer_headers, some body⟩]) := by
  refine ⟨fun c snd parts notif tr => ?_, fun c conv parts notif tr => ?_,
    fun c conv snd notif tr => rfl, fun c conv snd notif tr => rfl, ?_⟩
  · cases snd <;> cases parts <;> rfl
  · cases parts <;> rfl
  · intro c conv snd parts notif tr u body hne hu hp hs
    obtain ⟨l, hl, hlne⟩ := send_message_payload_shape snd parts notif body hp
    subst hl
    cases parts with
    | nil => exact absurd rfl hne
    | cons p ps =>
      have htr : (PyVal.dict l).truthy = true := by
        simp [PyVal.truthy, hlne]
      have hurl : c.get_layer_uri
          [some LAYER_URI_CONVERSATIONS, some u, some LAYER_URI_MESSAGES] =
          .ok ("https://api.layer.com/apps/" ++ c.app_uuid ++ "/" ++
            (LAYER_URI_CONVERSATIONS ++ "/" ++ (u ++ "/" ++ LAYER_URI_MESSAGES))) := rfl
      simp only [Conversation.uuid] at hu
      simp only [PlatformClient.send_message, Conversation.uuid, List.isEmpty_cons,
        Bool.false_eq_true, if_false]
      rw [hp, hu]
      dsimp only
      rw [hurl]
      dsimp only
      simp only [PlatformClient.raw_request, htr, hs, if_true]

/-- C5 witness: the single-POST conjunct applied at a concrete client,
conversation, sender and one-part message without a notification. -/
theorem send_message_guard_and_single_post_witness :
    (PlatformClient.send_message ⟨"app", "tok"⟩ (some convWitness)
        (some ⟨.str "u1", .str "Alice"⟩) (some [MessagePart.initDefault (.str "hi")])
        none (fun _ => ⟨500, "x", none⟩)).1 =
      [⟨METHOD_POST,
        "https://api.layer.com/apps/" ++ "app" ++ "/" ++
          (LAYER_URI_CONVERSATIONS ++ "/" ++
            ("f3cc7b32-3c92-11e4-baad-164230d1df67" ++ "/" ++ LAYER_URI_MESSAGES)),
        PlatformClient.get_layer_headers ⟨"app", "tok"⟩,
        some (.dict [("sender", .dict [("user_id", .str "u1")]),
          ("parts", .list [.dict [("body", .str "hi"),
            ("mime_type", .str "text/plain")]])])⟩] :=
  send_message_guard_and_single_post.2.2.2.2 ⟨"app", "tok"⟩ convWitness
    ⟨.str "u1", .str "Alice"⟩ [MessagePart.initDefault (.str "hi")] none
    (fun _ => ⟨500, "x", none⟩) "f3cc7b32-3c92-11e4-baad-164230d1df67"
    (.dict [("sender", .dict [("user_id", .str "u1")]),
      ("parts", .list [.dict [("body", .str "hi"), ("mime_type", .str "text/plain")]])])
    (by simp) rfl rfl rfl

/-- C7: the announcement request body always serializes the sender as
`{"name": <sender name>}` only — whatever identifier the `Sender` carries is
dropped, and the request body carries no `user_id` field; this holds for the
built payload and for every request actually handed to the transport. -/
theorem announcement_sender_name_only :
    (∀ (snd : Sender) (recipients : PyVal) (parts : List MessagePart)
        (notif : Option PyVal) (body : PyVal),
      send_announcement_payload snd recipients parts notif = .ok body →
      ∃ l, body = .dict l ∧
        l.lookup "sender" = some (.dict [("name", snd.name)]) ∧
        l.lookup "user_id" = none) ∧
    (∀ (c : PlatformClient) (snd : Sender) (recipients : PyVal)
        (parts : List MessagePart) (notif : Option PyVal)
        (tr : RequestRecord → HttpResponse) (req : RequestRecord),
      req ∈ (c.send_announcement snd recipients parts notif tr).1 →
      ∃ l, req.body = some (.dict l) ∧
        l.lookup "sender" = some (.dict [("name", snd.name)]) ∧
        l.lookup "user_id" = none) := by
  constructor
  · intro snd recipients parts notif body h
    obtain ⟨l, hl, hsender, huser, -⟩ :=
      send_announcement_payload_shape snd recipients parts notif body h
    exact ⟨l, hl, hsender, huser⟩
  · intro c snd recipients parts notif tr req hmem
    cases hpay : send_announcement_payload snd recipients parts notif with
    | error e =>
      rw [show (c.send_announcement snd recipients parts notif tr).1 = [] from by
        simp only [PlatformClient.send_announcement, hpay]] at hmem
      simp at hmem
    | ok body =>
      obtain ⟨l, hl, hsender, huser, hlne⟩ :=
        send_announcement_payload_shape snd recipients parts notif body hpay
      subst hl
      have htr : (PyVal.dict l).truthy = true := by
        simp [PyVal.truthy, hlne]
      by_cases hser : (PyVal.dict l).serializable = true
      · rw [show (c.send_announcement snd recipients parts notif tr).1 =
            [⟨METHOD_POST,
              "https://api.layer.com/apps/" ++ c.app_uuid ++ "/" ++ LAYER_URI_ANNOUNCEMENTS,
              c.get_layer_headers, some (.dict l)⟩] from by
          simp only [PlatformClient.send_announcement, hpay,
            PlatformClient.raw_request, htr, hser]
          rfl] at hmem
        rw [List.mem_singleton] at hmem
        subst hmem
        exact ⟨l, rfl, hsender, huser⟩
      · rw [show (c.send_announcement snd recipients parts notif tr).1 = [] from by
          simp only [PlatformClient.send_announcement, hpay,
            PlatformClient.raw_request, htr]
          rw [if_neg hser]
          simp only [if_true]
          cases c.get_layer_uri [some LAYER_URI_ANNOUNCEMENTS] <;> rfl] at hmem
        simp at hmem

/-- C7 witness: the payload conjunct applied at a sender that carries both
an identifier and a name. -/
theorem announcement_sender_name_only_witness :
    ∃ l, PyVal.dict [("sender", .dict [("name", .str "Alice")]),
        ("parts", .list []), ("recipients", .list [.str "r1"])] = .dict l ∧
      l.lookup "sender" = some (.dict [("name", PyVal.str "Alice")]) ∧
      l.lookup "user_id" = none :=
  announcement_sender_name_only.1 ⟨.str "u1", .str "Alice"⟩ (.list [.str "r1"]) [] none
    (.dict [("sender", .dict [("name", .str "Alice")]),
      ("parts", .list []), ("recipients", .list [.str "r1"])]) rfl

/-- C6: `Sender.as_dict` emits only `user_id` when the identifier is present
(a non-empty string), emits only `name` when the identifier is absent
(`None`), never emits both keys in one encoded object, and in particular a
`Sender` with identifier `u1` and name `Alice` encodes to exactly
`{"user_id": "u1"}`. -/
theorem sender_as_dict_identifier_precedence :
    (∀ (s : Sender) (u : String), s.id = .str u → u ≠ "" →
      s.as_dict = .dict [("user_id", s.id)]) ∧
    (∀ s : Sender, s.id = .null → s.as_dict = .dict [("name", s.name)]) ∧
    (∀ s : Sender, ¬(s.as_dict.hasKey "user_id" = true ∧ s.as_dict.hasKey "name" = true)) ∧
    Sender.as_dict ⟨.str "u1", .str "Alice"⟩ = .dict [("user_id", .str "u1")] := by
  refine ⟨fun s u h hu => ?_, fun s h => ?_, fun s => ?_, rfl⟩
  · simp [Sender.as_dict, h, PyVal.truthy, hu]
  · simp [Sender.as_dict, h, PyVal.truthy]
  · by_cases h : s.id.truthy <;>
      simp [Sender.as_dict, h, PyVal.hasKey, List.lookup]

/-- C6 witness: the precedence conjunct applied at the concrete sender. -/
theorem sender_as_dict_identifier_precedence_witness :
    Sender.as_dict ⟨.str "u1", .str "Alice"⟩ = .dict [("user_id", .str "u1")] :=
  sender_as_dict_identifier_precedence.1 ⟨.str "u1", .str "Alice"⟩ "u1" rfl (by decide)

/-- C8: encoding a `MessagePart` with body `"hello"`, the default MIME type
and no content-transfer encoding yields
`{"body": "hello", "mime_type": "text/plain"}`, and decoding that object
gives back a `MessagePart` equal to the original. -/
theorem message_part_round_trip :
    (MessagePart.initDefault (.str "hello")).as_dict =
      .dict [("body", .str "hello"), ("mime_type", .str "text/plain")] ∧
    MessagePart.from_dict (MessagePart.initDefault (.str "hello")).as_dict =
      .ok (MessagePart.initDefault (.str "hello")) :=
  ⟨rfl, rfl⟩

/-- C9: decoding a JSON object that lacks the `mime_type` field yields a
`MessagePart` whose MIME type is absent (`None`); the constructor's default
`text/plain` is applied only on direct construction without a MIME
argument. -/
theorem message_part_decode_no_default_mime :
    (∀ fs : List (String × PyVal), fs.lookup "mime_type" = none →
      MessagePart.from_dict (.dict fs) =
        .ok ⟨dictGet fs "body", .null, dictGet fs "encoding"⟩) ∧
    (∀ b : PyVal, (MessagePart.initDefault b).mime_type = .str "text/plain") := by
  constructor
  · intro fs h
    have hm : dictGet fs "mime_type" = .null := by simp [dictGet, h]
    calc MessagePart.from_dict (.dict fs)
        = .ok ⟨dictGet fs "body", dictGet fs "mime_type", dictGet fs "encoding"⟩ := rfl
      _ = .ok ⟨dictGet fs "body", .null, dictGet fs "encoding"⟩ := by rw [hm]
  · intro b
    rfl

/-- C9 witness: a one-field object with no `mime_type` decodes with an
absent MIME type. -/
theorem message_part_decode_no_default_mime_witness :
    MessagePart.from_dict (.dict [("body", .str "hi")]) =
      .ok ⟨dictGet [("body", .str "hi")] "body", .null,
        dictGet [("body", .str "hi")] "encoding"⟩ :=
  message_part_decode_no_default_mime.1 [("body", .str "hi")] rfl

/-- C10: on a successful (2xx) response, `delete_conversation` returns void
whatever the JSON body was; but the success path still parses the body as
JSON, so a 2xx response whose body is not valid JSON makes the operation
fail with the propagated `ValueError` instead of returning void. -/
theorem delete_conversation_parses_success_body (c : PlatformClient)
    (conversation_uuid : String) (resp : HttpResponse)
    (h2 : 200 ≤ resp.status) (h3 : resp.status < 300) :
    (∀ j, resp.jsonBody = some j →
      (c.delete_conversation conversation_uuid (fun _ => resp)).2 = .ok ()) ∧
    (resp.jsonBody = none →
      (c.delete_conversation conversation_uuid (fun _ => resp)).2 =
        .error .valueError) := by
  have hok : resp.ok = true := by
    simp only [HttpResponse.ok, decide_eq_true_eq]
    omega
  constructor
  · intro j hj
    simp [PlatformClient.delete_conversation, PlatformClient.get_layer_uri,
      pyJoinSlash, PlatformClient.raw_request, handle_response, hok, hj,
      Bind.bind, Except.bind, Except.map]
  · intro hj
    simp [PlatformClient.delete_conversation, PlatformClient.get_layer_uri,
      pyJoinSlash, PlatformClient.raw_request, handle_response, hok, hj,
      Bind.bind, Except.bind, Except.map]

/-- C10 witness: a 204 response with JSON body `null` returns void. -/
theorem delete_conversation_parses_success_body_witness :
    (PlatformClient.delete_conversation ⟨"app", "tok"⟩ "c1"
        (fun _ => ⟨204, "", some .null⟩)).2 = .ok () :=
  (delete_conversation_parses_success_body ⟨"app", "tok"⟩ "c1" ⟨204, "", some .null⟩
      (by decide) (by decide)).1 .null rfl

end LayerClient
